import Mathlib

/-!
Verification of the InsightForge order-fulfillment pipeline.

Shallow embedding of `src/app/api/routes.py` and `src/app/core/database.py`:
the persistent store (orders / reports / usage_stats tables) is a record of
lists, handlers become pure functions from state to state, and the external
collaborators (Stripe events, the Anthropic generation engine) are inputs.
-/

namespace InsightForge

/-- Python's built-in `round` on an exact rational: round half to even.
Models `round(x)` applied to the quotient in `get_stats`
(`routes.py:426-428`); binary-float inexactness of the intermediate
division is abstracted to exact rational arithmetic. -/
def roundHalfEven (q : ℚ) : ℤ :=
  let f : ℤ := q.floor
  let r : ℚ := q - (f : ℚ)
  if r < 1/2 then f
  else if 1/2 < r then f + 1
  else if f % 2 = 0 then f else f + 1

/-- `REPORT_PRICE_CENTS = 4900` from `routes.py:20`. -/
def REPORT_PRICE_CENTS : ℕ := 4900

/-- A row of the `orders` table (`database.py:35-53`).  Nullable columns are
`Option`; `amount_cents` is a non-negative integer amount in cents. -/
structure Order where
  id : String
  access_key : String
  status : String
  client_name : Option String
  client_email : Option String
  company_name : String
  industry : String
  analysis_type : String
  question : String
  source : String
  stripe_session_id : Option String
  stripe_payment_id : Option String
  amount_cents : ℕ
  created_at : String
  completed_at : Option String
  report_id : Option String
  error : Option String
  deriving Repr, DecidableEq

/-- A row of the `reports` table (`database.py:55-69`).  `sections` keeps the
dict's insertion order as an association list; the `*_json` round-trip of
`save_report` / `get_report` is modelled as the identity on the structured
values. -/
structure Report where
  id : String
  company_name : String
  industry : String
  question : String
  analysis_type : String
  executive_summary : String
  full_report : String
  sections : List (String × String)
  key_insights : List String
  recommendations : List String
  estimated_tokens_used : ℕ
  generation_time_seconds : ℚ
  created_at : String
  deriving Repr, DecidableEq

/-- The singleton `usage_stats` row (`database.py:77-82`). -/
structure Stats where
  total_reports : ℕ
  total_tokens : ℕ
  revenue_cents : ℕ
  deriving Repr, DecidableEq

/-- The persistent store: the three tables of `database.py` (the waitlist
table plays no part in the claims). -/
structure DB where
  orders : List Order
  reports : List Report
  stats : Stats
  deriving Repr, DecidableEq

/-- `db.get_order` (`database.py:113-116`): `SELECT * FROM orders WHERE id = ?`,
first row with the given primary key. -/
def get_order (db : DB) (order_id : String) : Option Order :=
  db.orders.find? (fun o => o.id == order_id)

/-- `db.save_order` (`database.py:91-110`): `INSERT OR REPLACE` keyed on `id`.
Row position is immaterial to every query the pipeline makes. -/
def save_order (db : DB) (o : Order) : DB :=
  if db.orders.any (fun x => x.id == o.id) then
    { db with orders := db.orders.map (fun x => if x.id == o.id then o else x) }
  else
    { db with orders := db.orders ++ [o] }

/-- The keyword arguments of one `db.update_order` call (`database.py:127-133`):
`none` means the column is not named in the update.  For a nullable column a
named field carries the non-null value being written (no pipeline call site
writes an explicit NULL).  The primary key `id` is never a kwarg at any call
site and is excluded. -/
structure OrderUpdate where
  access_key : Option String := none
  status : Option String := none
  client_name : Option String := none
  client_email : Option String := none
  company_name : Option String := none
  industry : Option String := none
  analysis_type : Option String := none
  question : Option String := none
  source : Option String := none
  stripe_session_id : Option String := none
  stripe_payment_id : Option String := none
  amount_cents : Option ℕ := none
  created_at : Option String := none
  completed_at : Option String := none
  report_id : Option String := none
  error : Option String := none
  deriving Repr, DecidableEq

/-- Effect of `UPDATE orders SET {named columns} WHERE id = ?` on one row:
each named column takes its new value and every other column is untouched. -/
def applyUpdate (u : OrderUpdate) (o : Order) : Order :=
  { o with
    access_key := u.access_key.getD o.access_key
    status := u.status.getD o.status
    client_name := match u.client_name with | some v => some v | none => o.client_name
    client_email := match u.client_email with | some v => some v | none => o.client_email
    company_name := u.company_name.getD o.company_name
    industry := u.industry.getD o.industry
    analysis_type := u.analysis_type.getD o.analysis_type
    question := u.question.getD o.question
    source := u.source.getD o.source
    stripe_session_id := match u.stripe_session_id with | some v => some v | none => o.stripe_session_id
    stripe_payment_id := match u.stripe_payment_id with | some v => some v | none => o.stripe_payment_id
    amount_cents := u.amount_cents.getD o.amount_cents
    created_at := u.created_at.getD o.created_at
    completed_at := match u.completed_at with | some v => some v | none => o.completed_at
    report_id := match u.report_id with | some v => some v | none => o.report_id
    error := match u.error with | some v => some v | none => o.error }

/-- `db.update_order` (`database.py:127-133`): one transactional partial
update of the rows whose `id` matches.  (The `if not kwargs: return` guard is
behaviourally the identity and an all-`none` update is already the identity
here.) -/
def update_order (db : DB) (order_id : String) (u : OrderUpdate) : DB :=
  { db with orders := db.orders.map (fun o => if o.id == order_id then applyUpdate u o else o) }

/-- `db.get_report` (`database.py:167-176`). -/
def get_report (db : DB) (report_id : String) : Option Report :=
  db.reports.find? (fun r => r.id == report_id)

/-- `db.save_report` (`database.py:144-164`): `INSERT OR REPLACE` keyed on `id`. -/
def save_report (db : DB) (r : Report) : DB :=
  if db.reports.any (fun x => x.id == r.id) then
    { db with reports := db.reports.map (fun x => if x.id == r.id then r else x) }
  else
    { db with reports := db.reports ++ [r] }

/-- `db.increment_stats` (`database.py:211-220`): one atomic additive update
of the singleton stats row. -/
def increment_stats (db : DB) (reports tokens revenue_cents : ℕ) : DB :=
  { db with stats :=
    { total_reports := db.stats.total_reports + reports
      total_tokens := db.stats.total_tokens + tokens
      revenue_cents := db.stats.revenue_cents + revenue_cents } }

/-- Status projection of an order lookup. -/
def statusOf (db : DB) (order_id : String) : Option String :=
  (get_order db order_id).map Order.status

/-- Report-id projection of an order lookup. -/
def reportIdOf (db : DB) (order_id : String) : Option (Option String) :=
  (get_order db order_id).map Order.report_id

/-- Error-field projection of an order lookup. -/
def errorOf (db : DB) (order_id : String) : Option (Option String) :=
  (get_order db order_id).map Order.error

/-- Completion-timestamp projection of an order lookup. -/
def completedAtOf (db : DB) (order_id : String) : Option (Option String) :=
  (get_order db order_id).map Order.completed_at

/-- System state: the store plus the order ids handed to the background task
runner (`BackgroundTasks.add_task(_generate_report_sync, order_id)`), each
entry one pending execution. -/
structure SysState where
  db : DB
  tasks : List String
  deriving Repr, DecidableEq

-- ---------- Stripe webhook (`routes.py:157-194`) ----------

/-- The fields `stripe_webhook` reads from `event["data"]["object"]` after
signature handling: `metadata.order_id`, `payment_intent`, `amount_total`
(each possibly absent, defaulted by `session.get`). -/
structure WebhookSession where
  order_id : Option String
  payment_intent : Option String
  amount_total : Option ℕ
  deriving Repr, DecidableEq

/-- A decoded webhook event: its `type` string and its data object. -/
structure WebhookEvent where
  type : String
  session : WebhookSession
  deriving Repr, DecidableEq

/-- The JSON bodies `stripe_webhook` can acknowledge with (both HTTP 200). -/
inductive WebhookAck where
  | ok
  | ignored (reason : String)
  deriving Repr, DecidableEq

/-- The amount credited by the webhook:
`session.get("amount_total", REPORT_PRICE_CENTS)`. -/
def webhookAmount (ev : WebhookEvent) : ℕ :=
  ev.session.amount_total.getD REPORT_PRICE_CENTS

/-- The kwargs of the `db.update_order` call in `stripe_webhook`
(`routes.py:185-190`). -/
def webhookUpdate (ev : WebhookEvent) : OrderUpdate :=
  { status := some "queued"
    stripe_payment_id := some (ev.session.payment_intent.getD "")
    amount_cents := some (webhookAmount ev) }

/-- `stripe_webhook` event dispatch (`routes.py:177-194`), after the
configuration and signature checks: on `checkout.session.completed`, look up
the order named in the metadata; only a `pending_payment` order is moved to
`queued` with payment reference and amount recorded, revenue incremented, and
one generation task scheduled.  Every other case acknowledges and leaves the
state untouched. -/
def stripe_webhook (ev : WebhookEvent) (s : SysState) : WebhookAck × SysState :=
  if ev.type == "checkout.session.completed" then
    match ev.session.order_id with
    | none => (.ignored "no order_id in metadata", s)
    | some order_id =>
      match get_order s.db order_id with
      | some o =>
        if o.status == "pending_payment" then
          let db1 := update_order s.db order_id (webhookUpdate ev)
          let db2 := increment_stats db1 0 0 (webhookAmount ev)
          (.ok, { db := db2, tasks := s.tasks ++ [order_id] })
        else (.ok, s)
      | none => (.ok, s)
  else (.ok, s)

/-- State part of `stripe_webhook`. -/
def webhookStep (ev : WebhookEvent) (s : SysState) : SysState :=
  (stripe_webhook ev s).2

-- ---------- Background generation task (`routes.py:209-248`) ----------

/-- What `AnalysisEngine.generate_report` (`analyzer.py:205-241`) produces. -/
structure AnalysisReport where
  company_name : String
  industry : String
  question : String
  analysis_type : String
  executive_summary : String
  full_report : String
  sections : List (String × String)
  key_insights : List String
  recommendations : List String
  estimated_tokens_used : ℕ
  deriving Repr, DecidableEq

/-- Outcome of one call to the external generation service: a report, or a
raised exception with its `str(e)` text. -/
inductive GenResult where
  | ok (r : AnalysisReport)
  | err (msg : String)
  deriving Repr, DecidableEq

/-- The environment of one `_generate_report_sync` execution: whether
`ANTHROPIC_API_KEY` is configured (`get_engine`, `routes.py:33-37`), what the
generation service does, and the fresh report id / timestamps / elapsed
duration drawn from the outside world. -/
structure GenEnv where
  apiKeyConfigured : Bool
  result : GenResult
  reportId : String
  createdAt : String
  completedAt : String
  elapsed : ℚ
  deriving Repr, DecidableEq

/-- How a background task execution ends: normal return, or an exception
propagating out of the task body. -/
inductive TaskOutcome where
  | done
  | raised (msg : String)
  deriving Repr, DecidableEq

/-- The report row persisted on success (`routes.py:230-236`): fresh id,
created-at, elapsed duration, and every field of the generation output. -/
def mkReportData (reportId createdAt : String) (elapsed : ℚ) (r : AnalysisReport) : Report :=
  { id := reportId
    company_name := r.company_name
    industry := r.industry
    question := r.question
    analysis_type := r.analysis_type
    executive_summary := r.executive_summary
    full_report := r.full_report
    sections := r.sections
    key_insights := r.key_insights
    recommendations := r.recommendations
    estimated_tokens_used := r.estimated_tokens_used
    generation_time_seconds := elapsed
    created_at := createdAt }

/-- Kwargs of `db.update_order(order_id, status="generating")` (`routes.py:215`). -/
def generatingUpdate : OrderUpdate := { status := some "generating" }

/-- Kwargs of the failure-path update (`routes.py:248`). -/
def failedUpdate (msg : String) : OrderUpdate :=
  { status := some "failed", error := some msg }

/-- Kwargs of the success-path update (`routes.py:239-244`). -/
def completedUpdate (reportId completedAt : String) : OrderUpdate :=
  { status := some "completed"
    report_id := some reportId
    completed_at := some completedAt }

/-- `_generate_report_sync` (`routes.py:209-248`).  Mirrors the source's
control flow exactly: absent order → return; set `generating`; `get_engine()`
OUTSIDE the try block (an unconfigured `ANTHROPIC_API_KEY` raises out of the
task); inside the try, a service exception is caught and recorded as
`failed`, a report is persisted and the order completed otherwise. -/
def generate_report_sync (env : GenEnv) (order_id : String) (db : DB) :
    TaskOutcome × DB :=
  match get_order db order_id with
  | none => (.done, db)
  | some _ =>
    let db1 := update_order db order_id generatingUpdate
    if env.apiKeyConfigured then
      match env.result with
      | .err msg =>
        (.done, update_order db1 order_id (failedUpdate msg))
      | .ok r =>
        let rep := mkReportData env.reportId env.createdAt env.elapsed r
        let db2 := save_report db1 rep
        let db3 := update_order db2 order_id (completedUpdate env.reportId env.completedAt)
        (.done, increment_stats db3 1 r.estimated_tokens_used 0)
    else
      (.raised "ANTHROPIC_API_KEY not configured", db1)

/-- One background-runner execution of a scheduled task: run the body and
consume the task entry. -/
def run_task (env : GenEnv) (order_id : String) (s : SysState) : SysState :=
  { db := (generate_report_sync env order_id s.db).2
    tasks := s.tasks.erase order_id }

-- ---------- Order intake (`routes.py:99-154` and `routes.py:251-288`) ----------

/-- The request body shared by `/api/v1/checkout` and `/api/v1/orders`. -/
structure IntakeReq where
  client_name : String
  client_email : String
  company_name : String
  industry : String
  analysis_type : String
  question : String
  source : String
  deriving Repr, DecidableEq

/-- The order row persisted at intake (`routes.py:111-123` / `263-275`). -/
def mkOrder (order_id access_key status created_at : String) (req : IntakeReq) : Order :=
  { id := order_id
    access_key := access_key
    status := status
    client_name := some req.client_name
    client_email := some req.client_email
    company_name := req.company_name
    industry := req.industry
    analysis_type := req.analysis_type
    question := req.question
    source := req.source
    stripe_session_id := none
    stripe_payment_id := none
    amount_cents := 0
    created_at := created_at
    completed_at := none
    report_id := none
    error := none }

/-- `create_order` (`routes.py:251-288`), state effect: persist a fresh
`queued` order and schedule its generation task. -/
def create_order (order_id access_key created_at : String) (req : IntakeReq)
    (s : SysState) : SysState :=
  { db := save_order s.db (mkOrder order_id access_key "queued" created_at req)
    tasks := s.tasks ++ [order_id] }

/-- `create_checkout` (`routes.py:99-154`), state effect: persist a fresh
`pending_payment` order, then record the gateway session id.  No task is
scheduled here. -/
def create_checkout (order_id access_key created_at session_id : String)
    (req : IntakeReq) (s : SysState) : SysState :=
  let db1 := save_order s.db (mkOrder order_id access_key "pending_payment" created_at req)
  { db := update_order db1 order_id { stripe_session_id := some session_id }
    tasks := s.tasks }

-- ---------- Status endpoint, admin gate, stats (`routes.py:291-311`, `40-45`, `405-431`) ----------

/-- An HTTP error: status code and detail string. -/
structure HttpError where
  code : ℕ
  detail : String
  deriving Repr, DecidableEq

/-- Body returned by `get_order_status` on success (`routes.py:298-311`).
`report_url` / `completed_at` are only attached for a completed order with a
truthy `report_id`; absent keys are modelled as `none`. -/
structure StatusResult where
  order_id : String
  status : String
  company_name : String
  analysis_type : String
  created_at : String
  report_url : Option String := none
  completed_at : Option String := none
  deriving Repr, DecidableEq

/-- `get_order_status` (`routes.py:291-311`): a missing order and a
mismatched access key take the same branch and produce the same
404 "Order not found". -/
def get_order_status (base_url : String) (db : DB) (order_id key : String) :
    Except HttpError StatusResult :=
  match get_order db order_id with
  | none => .error ⟨404, "Order not found"⟩
  | some o =>
    if o.access_key != key then .error ⟨404, "Order not found"⟩
    else
      let base : StatusResult :=
        { order_id := o.id
          status := o.status
          company_name := o.company_name
          analysis_type := o.analysis_type
          created_at := o.created_at }
      if o.status == "completed" && (o.report_id.getD "") != "" then
        .ok { base with
              report_url := some (base_url ++ "/report/" ++ o.report_id.getD "")
              completed_at := o.completed_at }
      else .ok base

/-- Truthiness of the `x_admin_key` header value in `require_admin`
(`not x_admin_key` is true for a missing header and for the empty string). -/
def headerFalsy : Option String → Bool
  | none => true
  | some s => s == ""

/-- `require_admin` (`routes.py:40-45`): reject with 500 when
`ADMIN_API_KEY` is unconfigured (empty env value), otherwise reject with 401
unless the supplied header is truthy and equal to the secret. -/
def require_admin (admin_key_env : String) (x_admin_key : Option String) :
    Except HttpError Unit :=
  if admin_key_env == "" then .error ⟨500, "ADMIN_API_KEY not configured"⟩
  else if headerFalsy x_admin_key || x_admin_key != some admin_key_env then
    .error ⟨401, "Invalid or missing admin key"⟩
  else .ok ()

/-- The `avg_tokens_per_report` field computed by `get_stats`
(`routes.py:426-428`): `round(total_tokens / total_reports) if
total_reports > 0 else 0`. -/
def avg_tokens_per_report (st : Stats) : ℤ :=
  if 0 < st.total_reports then
    roundHalfEven ((st.total_tokens : ℚ) / (st.total_reports : ℚ))
  else 0

/-- The integer-valued part of the `get_stats` response (`routes.py:419-431`);
the float-dollar derived fields carry no claim and are omitted. -/
structure StatsResult where
  total_reports : ℕ
  total_tokens : ℕ
  revenue_cents : ℕ
  avg_tokens : ℤ
  waitlist_signups : ℕ
  total_orders : ℕ
  deriving Repr, DecidableEq

/-- `get_stats` endpoint body (`routes.py:405-431`), integer fields. -/
def get_stats (db : DB) (waitlist_signups : ℕ) : StatsResult :=
  { total_reports := db.stats.total_reports
    total_tokens := db.stats.total_tokens
    revenue_cents := db.stats.revenue_cents
    avg_tokens := avg_tokens_per_report db.stats
    waitlist_signups := waitlist_signups
    total_orders := db.orders.length }

-- ---------- Reachability ----------

/-- The store produced by `init_db` (`database.py:32-86`): empty tables and
the zeroed singleton stats row. -/
def initState : SysState :=
  { db := { orders := [], reports := [], stats := ⟨0, 0, 0⟩ }, tasks := [] }

/-- One pipeline operation, as observable on the system state.  Intake steps
carry the freshness of the generated order id (ids are `time + token_hex`
values the spec declares unique). -/
inductive Step : SysState → SysState → Prop where
  | intake_direct (order_id access_key created_at : String) (req : IntakeReq)
      (s : SysState) (fresh : get_order s.db order_id = none) :
      Step s (create_order order_id access_key created_at req s)
  | intake_checkout (order_id access_key created_at session_id : String)
      (req : IntakeReq) (s : SysState) (fresh : get_order s.db order_id = none) :
      Step s (create_checkout order_id access_key created_at session_id req s)
  | webhook (ev : WebhookEvent) (s : SysState) : Step s (webhookStep ev s)
  | task (env : GenEnv) (order_id : String) (s : SysState)
      (mem : order_id ∈ s.tasks) : Step s (run_task env order_id s)

/-- States reachable from the freshly initialised store by pipeline
operations. -/
inductive Reachable : SysState → Prop where
  | init : Reachable initState
  | step {s s' : SysState} : Reachable s → Step s s' → Reachable s'

/-- Inductive invariant of the pipeline: order ids are unique, `report_id` is
non-null exactly on `completed` orders, and every scheduled task points at a
distinct `queued` order with no report yet. -/
structure Inv (s : SysState) : Prop where
  nodup_ids : (s.db.orders.map Order.id).Nodup
  consistent : ∀ o ∈ s.db.orders, (o.report_id ≠ none ↔ o.status = "completed")
  tasks_nodup : s.tasks.Nodup
  tasks_queued : ∀ oid ∈ s.tasks, ∃ o, get_order s.db oid = some o ∧
    o.status = "queued" ∧ o.report_id = none

-- ---------- Sample data for witnesses ----------

/-- A concrete intake request. -/
def sampleReq : IntakeReq :=
  { client_name := "Ann", client_email := "ann@acme.io", company_name := "Acme"
    industry := "Widgets", analysis_type := "swot"
    question := "Should we expand to EU?", source := "direct" }

/-- A concrete queued order used as witness input. -/
def sampleOrder : Order :=
  { id := "ord_1", access_key := "k1", status := "queued"
    client_name := some "Ann", client_email := some "ann@acme.io"
    company_name := "Acme", industry := "Widgets", analysis_type := "swot"
    question := "Should we expand to EU?", source := "direct"
    stripe_session_id := none, stripe_payment_id := none, amount_cents := 0
    created_at := "t0", completed_at := none, report_id := none, error := none }

/-- A one-order store used as witness input. -/
def sampleDB : DB := { orders := [sampleOrder], reports := [], stats := ⟨0, 0, 0⟩ }

/-- A generation environment whose service call raises. -/
def sampleEnv : GenEnv :=
  { apiKeyConfigured := true, result := .err "boom", reportId := "rpt_1"
    createdAt := "t1", completedAt := "t2", elapsed := 2 }

/-- A generation environment with `ANTHROPIC_API_KEY` unconfigured. -/
def unconfEnv : GenEnv := { sampleEnv with apiKeyConfigured := false }

/-- A concrete generation output. -/
def sampleAnalysis : AnalysisReport :=
  { company_name := "Acme", industry := "Widgets"
    question := "Should we expand to EU?", analysis_type := "swot"
    executive_summary := "ES", full_report := "FR"
    sections := [("Executive Summary", "ES")]
    key_insights := ["i1"], recommendations := ["r1"]
    estimated_tokens_used := 100 }

/-- A generation environment whose service call succeeds. -/
def okEnv : GenEnv := { sampleEnv with result := .ok sampleAnalysis, reportId := "rpt_9" }

/-- A concrete pending-payment order. -/
def pendingOrder : Order := { sampleOrder with id := "ord_p", status := "pending_payment" }

/-- A state holding only the pending order. -/
def pendingState : SysState :=
  { db := { orders := [pendingOrder], reports := [], stats := ⟨0, 0, 0⟩ }, tasks := [] }

/-- A payment-completed event for the pending order. -/
def payEvent : WebhookEvent :=
  { type := "checkout.session.completed"
    session := { order_id := some "ord_p", payment_intent := some "pi_1"
                 amount_total := some 4900 } }

-- ---------- Store lemmas ----------

theorem applyUpdate_id (u : OrderUpdate) (o : Order) : (applyUpdate u o).id = o.id := rfl

theorem get_order_update_self (db : DB) (oid : String) (u : OrderUpdate) :
    get_order (update_order db oid u) oid = (get_order db oid).map (applyUpdate u) := by
  show (db.orders.map _).find? _ = (db.orders.find? _).map _
  induction db.orders with
  | nil => rfl
  | cons a t ih =>
    by_cases h : a.id = oid
    · have h1 : (a.id == oid) = true := by simpa using h
      rw [List.map_cons, if_pos h1,
        List.find?_cons_of_pos (p := fun (o : Order) => o.id == oid) _
          (by simpa [applyUpdate_id] using h1),
        List.find?_cons_of_pos (p := fun (o : Order) => o.id == oid) _ h1]
      rfl
    · have h1 : ¬((a.id == oid) = true) := by simpa using h
      rw [List.map_cons, if_neg h1,
        List.find?_cons_of_neg (p := fun (o : Order) => o.id == oid) _ h1,
        List.find?_cons_of_neg (p := fun (o : Order) => o.id == oid) _ h1]
      exact ih

theorem get_order_update_other (db : DB) (oid oid' : String) (u : OrderUpdate)
    (h : oid' ≠ oid) :
    get_order (update_order db oid u) oid' = get_order db oid' := by
  show (db.orders.map _).find? _ = db.orders.find? _
  induction db.orders with
  | nil => rfl
  | cons a t ih =>
    by_cases ha : a.id = oid
    · have h1 : (a.id == oid) = true := by simpa using ha
      have h2 : ¬((a.id == oid') = true) := by
        simp only [beq_iff_eq]
        rw [ha]; exact fun e => h e.symm
      rw [List.map_cons, if_pos h1,
        List.find?_cons_of_neg (p := fun (o : Order) => o.id == oid') _
          (by simpa only [applyUpdate_id] using h2),
        List.find?_cons_of_neg (p := fun (o : Order) => o.id == oid') _ h2]
      exact ih
    · have h1 : ¬((a.id == oid) = true) := by simpa using ha
      rw [List.map_cons, if_neg h1]
      by_cases hb : a.id = oid'
      · have h2 : (a.id == oid') = true := by simpa using hb
        rw [List.find?_cons_of_pos (p := fun (o : Order) => o.id == oid') _ h2,
          List.find?_cons_of_pos (p := fun (o : Order) => o.id == oid') _ h2]
      · have h2 : ¬((a.id == oid') = true) := by simpa using hb
        rw [List.find?_cons_of_neg (p := fun (o : Order) => o.id == oid') _ h2,
          List.find?_cons_of_neg (p := fun (o : Order) => o.id == oid') _ h2]
        exact ih

theorem update_order_reports (db : DB) (oid : String) (u : OrderUpdate) :
    (update_order db oid u).reports = db.reports := rfl

theorem update_order_stats (db : DB) (oid : String) (u : OrderUpdate) :
    (update_order db oid u).stats = db.stats := rfl

theorem update_order_ids (db : DB) (oid : String) (u : OrderUpdate) :
    (update_order db oid u).orders.map Order.id = db.orders.map Order.id := by
  show (db.orders.map _).map _ = _
  rw [List.map_map]
  refine List.map_congr_left (fun o _ => ?_)
  by_cases h : o.id = oid <;> simp [h, applyUpdate_id]

theorem save_order_reports (db : DB) (o : Order) :
    (save_order db o).reports = db.reports := by
  unfold save_order; split <;> rfl

theorem save_order_stats (db : DB) (o : Order) :
    (save_order db o).stats = db.stats := by
  unfold save_order; split <;> rfl

theorem save_report_orders (db : DB) (r : Report) :
    (save_report db r).orders = db.orders := by
  unfold save_report; split <;> rfl

theorem save_report_stats (db : DB) (r : Report) :
    (save_report db r).stats = db.stats := by
  unfold save_report; split <;> rfl

theorem increment_stats_orders (db : DB) (a b c : ℕ) :
    (increment_stats db a b c).orders = db.orders := rfl

theorem increment_stats_reports (db : DB) (a b c : ℕ) :
    (increment_stats db a b c).reports = db.reports := rfl

theorem get_order_save_report (db : DB) (r : Report) (oid : String) :
    get_order (save_report db r) oid = get_order db oid := by
  unfold get_order; rw [save_report_orders]

theorem get_order_increment (db : DB) (a b c : ℕ) (oid : String) :
    get_order (increment_stats db a b c) oid = get_order db oid := rfl

theorem get_order_some_elim {db : DB} {oid : String} {o : Order}
    (h : get_order db oid = some o) : o ∈ db.orders ∧ o.id = oid := by
  refine ⟨List.mem_of_find?_eq_some h, ?_⟩
  have := List.find?_some h
  simpa using this

theorem get_order_none_elim {db : DB} {oid : String}
    (h : get_order db oid = none) : ∀ o ∈ db.orders, o.id ≠ oid := by
  intro o ho
  have := List.find?_eq_none.mp h o ho
  simpa using this

theorem get_order_save_fresh (db : DB) (o : Order) (oid : String)
    (h : get_order db o.id = none) :
    get_order (save_order db o) oid = if oid = o.id then some o else get_order db oid := by
  have hall : ∀ x ∈ db.orders, ¬((x.id == o.id) = true) := List.find?_eq_none.mp h
  have hany : ¬(db.orders.any (fun x => x.id == o.id) = true) := by
    intro hc
    obtain ⟨x, hx, hpx⟩ := List.any_eq_true.mp hc
    exact hall x hx hpx
  unfold save_order
  rw [if_neg hany]
  show (db.orders ++ [o]).find? (fun x => x.id == oid) = _
  rw [List.find?_append]
  by_cases he : oid = o.id
  · rw [if_pos he]
    have h1 : db.orders.find? (fun x => x.id == oid) = none := by
      rw [List.find?_eq_none]
      intro x hx
      rw [he]
      exact hall x hx
    rw [h1, List.find?_cons_of_pos (p := fun (x : Order) => x.id == oid) _ (by simp [he])]
    rfl
  · rw [if_neg he]
    have h1 : ([o].find? (fun x => x.id == oid)) = none := by
      rw [List.find?_cons_of_neg (p := fun (x : Order) => x.id == oid) _
        (by simp only [beq_iff_eq]; exact fun e => he e.symm)]
      rfl
    rw [h1, Option.or_none]
    rfl

theorem get_report_save_self (db : DB) (r : Report) :
    get_report (save_report db r) r.id = some r := by
  unfold save_report
  by_cases hany : db.reports.any (fun x => x.id == r.id) = true
  · rw [if_pos hany]
    show (db.reports.map _).find? _ = some r
    suffices hs : ∀ l : List Report, l.any (fun x => x.id == r.id) = true →
        (l.map (fun x => if x.id == r.id then r else x)).find?
          (fun x => x.id == r.id) = some r from hs db.reports hany
    intro l hl
    induction l with
    | nil => simp at hl
    | cons a t ih =>
      by_cases ha : a.id = r.id
      · have h1 : (a.id == r.id) = true := by simpa using ha
        rw [List.map_cons, if_pos h1,
          List.find?_cons_of_pos (p := fun (x : Report) => x.id == r.id) _ (by simp)]
      · have h1 : ¬((a.id == r.id) = true) := by simpa using ha
        rw [List.map_cons, if_neg h1,
          List.find?_cons_of_neg (p := fun (x : Report) => x.id == r.id) _ h1]
        apply ih
        obtain ⟨x, hx, hpx⟩ := List.any_eq_true.mp hl
        rcases List.mem_cons.mp hx with rfl | hx'
        · exact absurd hpx h1
        · exact List.any_eq_true.mpr ⟨x, hx', hpx⟩
  · rw [if_neg hany]
    have hnone : db.reports.find? (fun x => x.id == r.id) = none := by
      rw [List.find?_eq_none]
      intro x hx hpx
      exact hany (List.any_eq_true.mpr ⟨x, hx, hpx⟩)
    show (db.reports ++ [r]).find? _ = some r
    rw [List.find?_append, hnone,
      List.find?_cons_of_pos (p := fun (x : Report) => x.id == r.id) _ (by simp)]
    rfl

theorem mem_id_unique {l : List Order} (hn : (l.map Order.id).Nodup)
    {x y : Order} (hx : x ∈ l) (hy : y ∈ l) (h : x.id = y.id) : x = y :=
  List.inj_on_of_nodup_map hn hx hy h

theorem mem_get_order {db : DB} {o : Order} {oid : String}
    (hn : (db.orders.map Order.id).Nodup) (hm : o ∈ db.orders) (hid : o.id = oid) :
    get_order db oid = some o := by
  have hsome : (db.orders.find? (fun x => x.id == oid)).isSome := by
    rw [List.find?_isSome]
    exact ⟨o, hm, by simpa using hid⟩
  obtain ⟨o', ho'⟩ := Option.isSome_iff_exists.mp hsome
  obtain ⟨hm', hid'⟩ := get_order_some_elim ho'
  rw [show get_order db oid = some o' from ho']
  rw [mem_id_unique hn hm' hm (hid'.trans hid.symm)]

-- ---------- Handler characterisations ----------

theorem stripe_webhook_other_type {ev : WebhookEvent} (s : SysState)
    (ht : ev.type ≠ "checkout.session.completed") :
    stripe_webhook ev s = (.ok, s) := by
  unfold stripe_webhook
  rw [if_neg (by simpa using ht)]

theorem stripe_webhook_no_oid {ev : WebhookEvent} (s : SysState)
    (ht : ev.type = "checkout.session.completed")
    (hoid : ev.session.order_id = none) :
    stripe_webhook ev s = (.ignored "no order_id in metadata", s) := by
  unfold stripe_webhook
  rw [if_pos (by simpa using ht)]
  simp only [hoid]

theorem stripe_webhook_no_order {ev : WebhookEvent} {s : SysState} {oid : String}
    (ht : ev.type = "checkout.session.completed")
    (hoid : ev.session.order_id = some oid)
    (ho : get_order s.db oid = none) :
    stripe_webhook ev s = (.ok, s) := by
  unfold stripe_webhook
  rw [if_pos (by simpa using ht)]
  simp only [hoid, ho]

theorem stripe_webhook_not_pending {ev : WebhookEvent} {s : SysState} {oid : String}
    {o : Order} (ht : ev.type = "checkout.session.completed")
    (hoid : ev.session.order_id = some oid)
    (ho : get_order s.db oid = some o)
    (hst : o.status ≠ "pending_payment") :
    stripe_webhook ev s = (.ok, s) := by
  unfold stripe_webhook
  rw [if_pos (by simpa using ht)]
  simp only [hoid, ho]
  rw [if_neg (by simpa using hst)]

theorem stripe_webhook_pending {ev : WebhookEvent} {s : SysState} {oid : String}
    {o : Order} (ht : ev.type = "checkout.session.completed")
    (hoid : ev.session.order_id = some oid)
    (ho : get_order s.db oid = some o)
    (hst : o.status = "pending_payment") :
    stripe_webhook ev s =
      (.ok, { db := increment_stats (update_order s.db oid (webhookUpdate ev)) 0 0
                (webhookAmount ev)
              tasks := s.tasks ++ [oid] }) := by
  unfold stripe_webhook
  rw [if_pos (by simpa using ht)]
  simp only [hoid, ho]
  rw [if_pos (by simpa using hst)]

theorem gen_sync_absent {env : GenEnv} {oid : String} {db : DB}
    (h : get_order db oid = none) :
    generate_report_sync env oid db = (.done, db) := by
  unfold generate_report_sync
  rw [h]

theorem gen_sync_unconfigured {env : GenEnv} {oid : String} {db : DB} {o : Order}
    (h : get_order db oid = some o) (hk : env.apiKeyConfigured = false) :
    generate_report_sync env oid db =
      (.raised "ANTHROPIC_API_KEY not configured", update_order db oid generatingUpdate) := by
  unfold generate_report_sync
  rw [h]
  show (if env.apiKeyConfigured then _ else _) = _
  rw [hk, if_neg (by simp)]

theorem gen_sync_err {env : GenEnv} {oid : String} {db : DB} {o : Order} {msg : String}
    (h : get_order db oid = some o) (hk : env.apiKeyConfigured = true)
    (hr : env.result = .err msg) :
    generate_report_sync env oid db =
      (.done, update_order (update_order db oid generatingUpdate) oid (failedUpdate msg)) := by
  unfold generate_report_sync
  rw [h]
  show (if env.apiKeyConfigured then _ else _) = _
  rw [hk, if_pos rfl, hr]

theorem gen_sync_ok {env : GenEnv} {oid : String} {db : DB} {o : Order}
    {r : AnalysisReport}
    (h : get_order db oid = some o) (hk : env.apiKeyConfigured = true)
    (hr : env.result = .ok r) :
    generate_report_sync env oid db =
      (.done,
        increment_stats
          (update_order
            (save_report (update_order db oid generatingUpdate)
              (mkReportData env.reportId env.createdAt env.elapsed r))
            oid (completedUpdate env.reportId env.completedAt))
          1 r.estimated_tokens_used 0) := by
  unfold generate_report_sync
  rw [h]
  show (if env.apiKeyConfigured then _ else _) = _
  rw [hk, if_pos rfl, hr]

-- ---------- Invariant preservation ----------

theorem save_order_fresh_orders (db : DB) (o : Order)
    (h : get_order db o.id = none) :
    (save_order db o).orders = db.orders ++ [o] := by
  have hany : ¬(db.orders.any (fun x => x.id == o.id) = true) := by
    intro hc
    obtain ⟨x, hx, hpx⟩ := List.any_eq_true.mp hc
    exact get_order_none_elim h x hx (by simpa using hpx)
  unfold save_order
  rw [if_neg hany]

theorem update_order_mem_char {db : DB} {oid : String} (u : OrderUpdate)
    (hn : (db.orders.map Order.id).Nodup) {o : Order}
    (ho : get_order db oid = some o) :
    ∀ x ∈ (update_order db oid u).orders,
      (x = applyUpdate u o ∧ x.id = oid) ∨ (x ∈ db.orders ∧ x.id ≠ oid) := by
  intro x hx
  obtain ⟨y, hy, hxy⟩ := List.mem_map.mp hx
  obtain ⟨hom, hoideq⟩ := get_order_some_elim ho
  by_cases hid : y.id = oid
  · left
    have hyo : y = o := mem_id_unique hn hy hom (hid.trans hoideq.symm)
    have hxe : x = applyUpdate u y := by
      rw [← hxy]
      show (if (y.id == oid) = true then applyUpdate u y else y) = applyUpdate u y
      rw [if_pos (by simpa using hid)]
    subst hyo
    exact ⟨hxe, by rw [hxe, applyUpdate_id]; exact hid⟩
  · right
    have hxe : x = y := by
      rw [← hxy]
      show (if (y.id == oid) = true then applyUpdate u y else y) = y
      rw [if_neg (by simpa using hid)]
    exact ⟨hxe ▸ hy, by rw [hxe]; exact hid⟩

theorem inv_init : Inv initState :=
  ⟨by simp [initState], by simp [initState], by simp [initState], by simp [initState]⟩

theorem inv_create_order {s : SysState} (hi : Inv s) (oid key cat : String)
    (req : IntakeReq) (fresh : get_order s.db oid = none) :
    Inv (create_order oid key cat req s) := by
  have horders : (create_order oid key cat req s).db.orders
      = s.db.orders ++ [mkOrder oid key "queued" cat req] := by
    show (save_order s.db _).orders = _
    exact save_order_fresh_orders s.db _ fresh
  have hnotmem : oid ∉ s.db.orders.map Order.id := by
    intro hc
    obtain ⟨x, hx, hxid⟩ := List.mem_map.mp hc
    exact get_order_none_elim fresh x hx hxid
  have hnottask : oid ∉ s.tasks := by
    intro hc
    obtain ⟨o', ho', _⟩ := hi.tasks_queued oid hc
    rw [fresh] at ho'
    exact absurd ho' (by simp)
  refine ⟨?_, ?_, ?_, ?_⟩
  · rw [horders, List.map_append, List.nodup_append]
    refine ⟨hi.nodup_ids, List.nodup_singleton _, ?_⟩
    intro a ha hb
    rw [show (List.map Order.id [mkOrder oid key "queued" cat req]) = [oid] from rfl,
      List.mem_singleton] at hb
    subst hb
    exact hnotmem ha
  · rw [horders]
    intro x hx
    rcases List.mem_append.mp hx with hx | hx
    · exact hi.consistent x hx
    · rw [List.mem_singleton] at hx
      subst hx
      exact ⟨fun h => absurd rfl h,
        fun h => absurd h (show ("queued" : String) ≠ "completed" by decide)⟩
  · show (s.tasks ++ [oid]).Nodup
    rw [List.nodup_append]
    refine ⟨hi.tasks_nodup, List.nodup_singleton _, ?_⟩
    intro a ha hb
    rw [List.mem_singleton] at hb
    subst hb
    exact hnottask ha
  · intro tid htid
    rcases List.mem_append.mp (show tid ∈ s.tasks ++ [oid] from htid) with htid | htid
    · obtain ⟨o', ho', hq', hr'⟩ := hi.tasks_queued tid htid
      refine ⟨o', ?_, hq', hr'⟩
      show get_order (save_order s.db _) tid = some o'
      rw [get_order_save_fresh s.db _ tid fresh]
      rw [if_neg ?_]
      · exact ho'
      · intro he
        have he' : tid = oid := he
        rw [he', fresh] at ho'
        exact absurd ho' (by simp)
    · rw [List.mem_singleton] at htid
      subst htid
      refine ⟨mkOrder tid key "queued" cat req, ?_, rfl, rfl⟩
      show get_order (save_order s.db (mkOrder tid key "queued" cat req)) tid = _
      rw [get_order_save_fresh s.db _ tid fresh,
        if_pos (show tid = (mkOrder tid key "queued" cat req).id from rfl)]

theorem inv_create_checkout {s : SysState} (hi : Inv s) (oid key cat sid : String)
    (req : IntakeReq) (fresh : get_order s.db oid = none) :
    Inv (create_checkout oid key cat sid req s) := by
  have horders : (save_order s.db (mkOrder oid key "pending_payment" cat req)).orders
      = s.db.orders ++ [mkOrder oid key "pending_payment" cat req] :=
    save_order_fresh_orders s.db _ fresh
  have hnotmem : oid ∉ s.db.orders.map Order.id := by
    intro hc
    obtain ⟨x, hx, hxid⟩ := List.mem_map.mp hc
    exact get_order_none_elim fresh x hx hxid
  have hdb1 : get_order (save_order s.db (mkOrder oid key "pending_payment" cat req)) oid
      = some (mkOrder oid key "pending_payment" cat req) := by
    rw [get_order_save_fresh s.db _ oid fresh,
      if_pos (show oid = (mkOrder oid key "pending_payment" cat req).id from rfl)]
  have hnodup1 : ((save_order s.db (mkOrder oid key "pending_payment" cat req)).orders.map
      Order.id).Nodup := by
    rw [horders, List.map_append, List.nodup_append]
    refine ⟨hi.nodup_ids, List.nodup_singleton _, ?_⟩
    intro a ha hb
    rw [show (List.map Order.id [mkOrder oid key "pending_payment" cat req]) = [oid] from rfl,
      List.mem_singleton] at hb
    subst hb
    exact hnotmem ha
  refine ⟨?_, ?_, hi.tasks_nodup, ?_⟩
  · show ((update_order _ oid _).orders.map Order.id).Nodup
    rw [update_order_ids]
    exact hnodup1
  · intro x hx
    rcases update_order_mem_char _ hnodup1 hdb1 x hx with ⟨hxe, _⟩ | ⟨hxm, _⟩
    · subst hxe
      exact ⟨fun h => absurd rfl h,
        fun h => absurd h (show ("pending_payment" : String) ≠ "completed" by decide)⟩
    · rw [horders] at hxm
      rcases List.mem_append.mp hxm with hxm | hxm
      · exact hi.consistent x hxm
      · rw [List.mem_singleton] at hxm
        subst hxm
        exact ⟨fun h => absurd rfl h,
          fun h => absurd h (show ("pending_payment" : String) ≠ "completed" by decide)⟩
  · intro tid htid
    obtain ⟨o', ho', hq', hr'⟩ := hi.tasks_queued tid htid
    have hne : tid ≠ oid := by
      intro he
      rw [he, fresh] at ho'
      exact absurd ho' (by simp)
    refine ⟨o', ?_, hq', hr'⟩
    show get_order (update_order (save_order s.db _) oid _) tid = some o'
    rw [get_order_update_other _ oid tid _ hne,
      get_order_save_fresh s.db _ tid fresh,
      if_neg (show ¬(tid = (mkOrder oid key "pending_payment" cat req).id) from hne)]
    exact ho'

theorem inv_webhook {s : SysState} (hi : Inv s) (ev : WebhookEvent) :
    Inv (webhookStep ev s) := by
  by_cases ht : ev.type = "checkout.session.completed"
  · cases hoid : ev.session.order_id with
    | none =>
      have h1 : webhookStep ev s = s := by
        unfold webhookStep
        rw [stripe_webhook_no_oid s ht hoid]
      rw [h1]
      exact hi
    | some oid =>
      cases ho : get_order s.db oid with
      | none =>
        have h1 : webhookStep ev s = s := by
          unfold webhookStep
          rw [stripe_webhook_no_order ht hoid ho]
        rw [h1]
        exact hi
      | some o =>
        by_cases hst : o.status = "pending_payment"
        · have h1 : webhookStep ev s =
              { db := increment_stats (update_order s.db oid (webhookUpdate ev)) 0 0
                  (webhookAmount ev)
                tasks := s.tasks ++ [oid] } := by
            unfold webhookStep
            rw [stripe_webhook_pending ht hoid ho hst]
          have horep : o.report_id = none := by
            by_contra hne
            have hco := (hi.consistent o (get_order_some_elim ho).1).mp hne
            rw [hst] at hco
            exact absurd hco (by decide)
          have hnottask : oid ∉ s.tasks := by
            intro hc
            obtain ⟨o', ho', hq', _⟩ := hi.tasks_queued oid hc
            rw [ho] at ho'
            have he : o = o' := by injection ho'
            rw [← he, hst] at hq'
            exact absurd hq' (by decide)
          rw [h1]
          refine ⟨?_, ?_, ?_, ?_⟩
          · show ((update_order s.db oid (webhookUpdate ev)).orders.map Order.id).Nodup
            rw [update_order_ids]
            exact hi.nodup_ids
          · intro x hx
            rcases update_order_mem_char (webhookUpdate ev) hi.nodup_ids ho x hx with
              ⟨hxe, _⟩ | ⟨hxm, _⟩
            · subst hxe
              exact ⟨fun h => absurd horep h,
                fun h => absurd h (show ("queued" : String) ≠ "completed" by decide)⟩
            · exact hi.consistent x hxm
          · show (s.tasks ++ [oid]).Nodup
            rw [List.nodup_append]
            refine ⟨hi.tasks_nodup, List.nodup_singleton _, ?_⟩
            intro a ha hb
            rw [List.mem_singleton] at hb
            subst hb
            exact hnottask ha
          · intro tid htid
            rcases List.mem_append.mp htid with htid | htid
            · obtain ⟨o', ho', hq', hr'⟩ := hi.tasks_queued tid htid
              have hne : tid ≠ oid := by
                intro he
                rw [he, ho] at ho'
                have he2 : o = o' := by injection ho'
                rw [← he2, hst] at hq'
                exact absurd hq' (by decide)
              refine ⟨o', ?_, hq', hr'⟩
              show get_order (increment_stats (update_order s.db oid _) 0 0 _) tid = some o'
              rw [get_order_increment, get_order_update_other s.db oid tid _ hne]
              exact ho'
            · rw [List.mem_singleton] at htid
              subst htid
              refine ⟨applyUpdate (webhookUpdate ev) o, ?_, rfl, horep⟩
              show get_order (increment_stats (update_order s.db tid _) 0 0 _) tid = _
              rw [get_order_increment, get_order_update_self, ho]
              rfl
        · have h1 : webhookStep ev s = s := by
            unfold webhookStep
            rw [stripe_webhook_not_pending ht hoid ho hst]
          rw [h1]
          exact hi
  · have h1 : webhookStep ev s = s := by
      unfold webhookStep
      rw [stripe_webhook_other_type s ht]
    rw [h1]
    exact hi

theorem inv_run_task {s : SysState} (hi : Inv s) (env : GenEnv) (oid : String)
    (mem : oid ∈ s.tasks) : Inv (run_task env oid s) := by
  obtain ⟨o, ho, hq, hrep⟩ := hi.tasks_queued oid mem
  have htasks_nodup : (s.tasks.erase oid).Nodup := hi.tasks_nodup.erase oid
  have htasks_mem : ∀ tid ∈ s.tasks.erase oid, tid ∈ s.tasks ∧ tid ≠ oid := by
    intro tid htid
    have h := (List.Nodup.mem_erase_iff hi.tasks_nodup).mp htid
    exact ⟨h.2, h.1⟩
  cases hk : env.apiKeyConfigured with
  | false =>
    have hdb : (generate_report_sync env oid s.db).2
        = update_order s.db oid generatingUpdate := by
      rw [gen_sync_unconfigured ho hk]
    refine ⟨?_, ?_, htasks_nodup, ?_⟩
    · show (((generate_report_sync env oid s.db).2).orders.map Order.id).Nodup
      rw [hdb, update_order_ids]
      exact hi.nodup_ids
    · show ∀ x ∈ ((generate_report_sync env oid s.db).2).orders, _
      rw [hdb]
      intro x hx
      rcases update_order_mem_char generatingUpdate hi.nodup_ids ho x hx with
        ⟨hxe, _⟩ | ⟨hxm, _⟩
      · subst hxe
        exact ⟨fun h => absurd hrep h,
          fun h => absurd h (show ("generating" : String) ≠ "completed" by decide)⟩
      · exact hi.consistent x hxm
    · intro tid htid
      obtain ⟨htmem, hne⟩ := htasks_mem tid htid
      obtain ⟨o', ho', hq', hr'⟩ := hi.tasks_queued tid htmem
      refine ⟨o', ?_, hq', hr'⟩
      show get_order ((generate_report_sync env oid s.db).2) tid = some o'
      rw [hdb, get_order_update_other s.db oid tid _ hne]
      exact ho'
  | true =>
    cases hrr : env.result with
    | err msg =>
      have hdb : (generate_report_sync env oid s.db).2
          = update_order (update_order s.db oid generatingUpdate) oid (failedUpdate msg) := by
        rw [gen_sync_err ho hk hrr]
      have hnodup1 : ((update_order s.db oid generatingUpdate).orders.map Order.id).Nodup := by
        rw [update_order_ids]
        exact hi.nodup_ids
      have ho1 : get_order (update_order s.db oid generatingUpdate) oid
          = some (applyUpdate generatingUpdate o) := by
        rw [get_order_update_self, ho]
        rfl
      refine ⟨?_, ?_, htasks_nodup, ?_⟩
      · show (((generate_report_sync env oid s.db).2).orders.map Order.id).Nodup
        rw [hdb, update_order_ids, update_order_ids]
        exact hi.nodup_ids
      · show ∀ x ∈ ((generate_report_sync env oid s.db).2).orders, _
        rw [hdb]
        intro x hx
        rcases update_order_mem_char (failedUpdate msg) hnodup1 ho1 x hx with
          ⟨hxe, _⟩ | ⟨hxm, hxid⟩
        · subst hxe
          exact ⟨fun h => absurd hrep h,
            fun h => absurd h (show ("failed" : String) ≠ "completed" by decide)⟩
        · rcases update_order_mem_char generatingUpdate hi.nodup_ids ho x hxm with
            ⟨hxe2, hxid2⟩ | ⟨hxm2, _⟩
          · exact absurd hxid2 hxid
          · exact hi.consistent x hxm2
      · intro tid htid
        obtain ⟨htmem, hne⟩ := htasks_mem tid htid
        obtain ⟨o', ho', hq', hr'⟩ := hi.tasks_queued tid htmem
        refine ⟨o', ?_, hq', hr'⟩
        show get_order ((generate_report_sync env oid s.db).2) tid = some o'
        rw [hdb, get_order_update_other _ oid tid _ hne,
          get_order_update_other s.db oid tid _ hne]
        exact ho'
    | ok r =>
      have hdb : (generate_report_sync env oid s.db).2
          = increment_stats
              (update_order
                (save_report (update_order s.db oid generatingUpdate)
                  (mkReportData env.reportId env.createdAt env.elapsed r))
                oid (completedUpdate env.reportId env.completedAt))
              1 r.estimated_tokens_used 0 := by
        rw [gen_sync_ok ho hk hrr]
      have hnodup2 : ((save_report (update_order s.db oid generatingUpdate)
          (mkReportData env.reportId env.createdAt env.elapsed r)).orders.map
            Order.id).Nodup := by
        rw [save_report_orders, update_order_ids]
        exact hi.nodup_ids
      have ho2 : get_order (save_report (update_order s.db oid generatingUpdate)
          (mkReportData env.reportId env.createdAt env.elapsed r)) oid
          = some (applyUpdate generatingUpdate o) := by
        rw [get_order_save_report, get_order_update_self, ho]
        rfl
      refine ⟨?_, ?_, htasks_nodup, ?_⟩
      · show (((generate_report_sync env oid s.db).2).orders.map Order.id).Nodup
        rw [hdb]
        show (((update_order _ oid _).orders).map Order.id).Nodup
        rw [update_order_ids, save_report_orders, update_order_ids]
        exact hi.nodup_ids
      · show ∀ x ∈ ((generate_report_sync env oid s.db).2).orders, _
        rw [hdb]
        intro x hx
        rcases update_order_mem_char (completedUpdate env.reportId env.completedAt)
            hnodup2 ho2 x hx with ⟨hxe, _⟩ | ⟨hxm, hxid⟩
        · subst hxe
          exact ⟨fun _ => rfl, fun _ => Option.some_ne_none env.reportId⟩
        · rw [save_report_orders] at hxm
          rcases update_order_mem_char generatingUpdate hi.nodup_ids ho x hxm with
            ⟨hxe2, hxid2⟩ | ⟨hxm2, _⟩
          · exact absurd hxid2 hxid
          · exact hi.consistent x hxm2
      · intro tid htid
        obtain ⟨htmem, hne⟩ := htasks_mem tid htid
        obtain ⟨o', ho', hq', hr'⟩ := hi.tasks_queued tid htmem
        refine ⟨o', ?_, hq', hr'⟩
        show get_order ((generate_report_sync env oid s.db).2) tid = some o'
        rw [hdb, get_order_increment, get_order_update_other _ oid tid _ hne,
          get_order_save_report, get_order_update_other s.db oid tid _ hne]
        exact ho'

theorem inv_step {s s' : SysState} (hi : Inv s) (h : Step s s') : Inv s' := by
  cases h with
  | intake_direct oid key cat req _ fresh => exact inv_create_order hi oid key cat req fresh
  | intake_checkout oid key cat sid req _ fresh =>
    exact inv_create_checkout hi oid key cat sid req fresh
  | webhook ev _ => exact inv_webhook hi ev
  | task env oid _ mem => exact inv_run_task hi env oid mem

theorem reachable_inv {s : SysState} (h : Reachable s) : Inv s := by
  induction h with
  | init => exact inv_init
  | step _ hst ih => exact inv_step ih hst

-- ---------- Access-key preservation ----------

theorem webhookStep_keeps_key (ev : WebhookEvent) (s : SysState) {oid : String}
    {o : Order} (ho : get_order s.db oid = some o) :
    ∃ o', get_order (webhookStep ev s).db oid = some o' ∧
      o'.access_key = o.access_key := by
  by_cases ht : ev.type = "checkout.session.completed"
  · cases hoid : ev.session.order_id with
    | none =>
      have h1 : webhookStep ev s = s := by
        unfold webhookStep
        rw [stripe_webhook_no_oid s ht hoid]
      rw [h1]
      exact ⟨o, ho, rfl⟩
    | some oid1 =>
      cases ho1 : get_order s.db oid1 with
      | none =>
        have h1 : webhookStep ev s = s := by
          unfold webhookStep
          rw [stripe_webhook_no_order ht hoid ho1]
        rw [h1]
        exact ⟨o, ho, rfl⟩
      | some o1 =>
        by_cases hst : o1.status = "pending_payment"
        · have h1 : webhookStep ev s =
              { db := increment_stats (update_order s.db oid1 (webhookUpdate ev)) 0 0
                  (webhookAmount ev)
                tasks := s.tasks ++ [oid1] } := by
            unfold webhookStep
            rw [stripe_webhook_pending ht hoid ho1 hst]
          rw [h1]
          by_cases he : oid = oid1
          · subst he
            refine ⟨applyUpdate (webhookUpdate ev) o, ?_, rfl⟩
            show get_order (increment_stats (update_order s.db oid _) 0 0 _) oid = _
            rw [get_order_increment, get_order_update_self, ho]
            rfl
          · refine ⟨o, ?_, rfl⟩
            show get_order (increment_stats (update_order s.db oid1 _) 0 0 _) oid = _
            rw [get_order_increment, get_order_update_other s.db oid1 oid _ he]
            exact ho
        · have h1 : webhookStep ev s = s := by
            unfold webhookStep
            rw [stripe_webhook_not_pending ht hoid ho1 hst]
          rw [h1]
          exact ⟨o, ho, rfl⟩
  · have h1 : webhookStep ev s = s := by
      unfold webhookStep
      rw [stripe_webhook_other_type s ht]
    rw [h1]
    exact ⟨o, ho, rfl⟩

theorem run_task_keeps_key (env : GenEnv) (tid : String) (s : SysState)
    {oid : String} {o : Order} (ho : get_order s.db oid = some o) :
    ∃ o', get_order (run_task env tid s).db oid = some o' ∧
      o'.access_key = o.access_key := by
  show ∃ o', get_order (generate_report_sync env tid s.db).2 oid = some o' ∧ _
  cases h0 : get_order s.db tid with
  | none =>
    rw [gen_sync_absent h0]
    exact ⟨o, ho, rfl⟩
  | some o0 =>
    cases hk : env.apiKeyConfigured with
    | false =>
      rw [gen_sync_unconfigured h0 hk]
      by_cases he : oid = tid
      · subst he
        refine ⟨applyUpdate generatingUpdate o, ?_, rfl⟩
        rw [get_order_update_self, ho]
        rfl
      · refine ⟨o, ?_, rfl⟩
        rw [get_order_update_other s.db tid oid _ he]
        exact ho
    | true =>
      cases hrr : env.result with
      | err msg =>
        rw [gen_sync_err h0 hk hrr]
        by_cases he : oid = tid
        · subst he
          refine ⟨applyUpdate (failedUpdate msg) (applyUpdate generatingUpdate o), ?_, rfl⟩
          rw [get_order_update_self, get_order_update_self, ho]
          rfl
        · refine ⟨o, ?_, rfl⟩
          rw [get_order_update_other _ tid oid _ he,
            get_order_update_other s.db tid oid _ he]
          exact ho
      | ok r =>
        rw [gen_sync_ok h0 hk hrr]
        rw [get_order_increment]
        by_cases he : oid = tid
        · subst he
          refine ⟨applyUpdate (completedUpdate env.reportId env.completedAt)
            (applyUpdate generatingUpdate o), ?_, rfl⟩
          rw [get_order_update_self, get_order_save_report, get_order_update_self, ho]
          rfl
        · refine ⟨o, ?_, rfl⟩
          rw [get_order_update_other _ tid oid _ he, get_order_save_report,
            get_order_update_other s.db tid oid _ he]
          exact ho

theorem step_keeps_key {s s' : SysState} (hst : Step s s') {oid : String}
    {o : Order} (ho : get_order s.db oid = some o) :
    ∃ o', get_order s'.db oid = some o' ∧ o'.access_key = o.access_key := by
  cases hst with
  | intake_direct oid1 key cat req _ fresh =>
    refine ⟨o, ?_, rfl⟩
    show get_order (save_order s.db (mkOrder oid1 key "queued" cat req)) oid = some o
    rw [get_order_save_fresh s.db _ oid fresh]
    rw [if_neg ?_]
    · exact ho
    · intro he
      have he' : oid = oid1 := he
      rw [he', fresh] at ho
      exact absurd ho (by simp)
  | intake_checkout oid1 key cat sid req _ fresh =>
    have hne : oid ≠ oid1 := by
      intro he
      rw [he, fresh] at ho
      exact absurd ho (by simp)
    refine ⟨o, ?_, rfl⟩
    show get_order (update_order (save_order s.db (mkOrder oid1 key "pending_payment" cat req))
      oid1 _) oid = some o
    rw [get_order_update_other _ oid1 oid _ hne,
      get_order_save_fresh s.db _ oid fresh,
      if_neg (show ¬(oid = (mkOrder oid1 key "pending_payment" cat req).id) from hne)]
    exact ho
  | webhook ev _ => exact webhookStep_keeps_key ev s ho
  | task env tid _ mem => exact run_task_keeps_key env tid s ho

-- ---------- Claims ----------

/-- C4: `get_order_status` answers the identical 404 "Order not found" both
when no order with the given id exists and when the order exists but its
access key differs from the supplied key, so a caller cannot tell an unknown
id from a wrong key. -/
theorem order_status_key_gate (base_url : String) (db : DB) (oid key : String) :
    (get_order db oid = none →
      get_order_status base_url db oid key = .error ⟨404, "Order not found"⟩) ∧
    (∀ o : Order, get_order db oid = some o → o.access_key ≠ key →
      get_order_status base_url db oid key = .error ⟨404, "Order not found"⟩) := by
  constructor
  · intro h
    unfold get_order_status
    rw [h]
  · intro o h hk
    unfold get_order_status
    simp only [h]
    rw [if_pos (by simpa using hk)]

/-- C4 witness: both failure shapes at concrete inputs. -/
theorem order_status_key_gate_witness :
    get_order_status "https://b" sampleDB "ord_1" "wrong" = .error ⟨404, "Order not found"⟩ ∧
    get_order_status "https://b" sampleDB "missing" "k1" = .error ⟨404, "Order not found"⟩ :=
  ⟨(order_status_key_gate "https://b" sampleDB "ord_1" "wrong").2 sampleOrder
      (by decide) (by decide),
   (order_status_key_gate "https://b" sampleDB "missing" "k1").1 (by decide)⟩

/-- C8: the admin gate fails closed — with an unconfigured (empty) secret
every request is rejected with a 500 whatever the credential; with a
configured secret it passes exactly when the header equals the secret. -/
theorem require_admin_fails_closed (k : String) (cred : Option String) :
    (k = "" → require_admin k cred = .error ⟨500, "ADMIN_API_KEY not configured"⟩) ∧
    (k ≠ "" → (require_admin k cred = .ok () ↔ cred = some k)) := by
  constructor
  · intro h
    unfold require_admin
    rw [if_pos (by simpa using h)]
  · intro h
    unfold require_admin
    rw [if_neg (by simpa using h)]
    by_cases hc : cred = some k
    · rw [hc]
      have h1 : headerFalsy (some k) = false := by simp [headerFalsy, h]
      rw [if_neg (by simp [h1])]
      simp
    · have h2 : (cred != some k) = true := by simpa using hc
      rw [if_pos (by simp [h2])]
      simp [hc]

/-- C8 witness: rejected when unconfigured, accepted on exact match. -/
theorem require_admin_fails_closed_witness :
    require_admin "" (some "k") = .error ⟨500, "ADMIN_API_KEY not configured"⟩ ∧
    (require_admin "secret" (some "secret") = .ok () ↔
      (some "secret" : Option String) = some "secret") :=
  ⟨(require_admin_fails_closed "" (some "k")).1 rfl,
   (require_admin_fails_closed "secret" (some "secret")).2 (by decide)⟩

/-- C9: for an order id absent from the store, the background task is a
complete no-op — it returns normally and leaves the store untouched. -/
theorem gen_task_noop_when_absent (env : GenEnv) (oid : String) (db : DB)
    (h : get_order db oid = none) :
    generate_report_sync env oid db = (.done, db) :=
  gen_sync_absent h

/-- C9 witness: a missing id against the sample store. -/
theorem gen_task_noop_when_absent_witness :
    get_order sampleDB "ord_missing" = none ∧
    generate_report_sync sampleEnv "ord_missing" sampleDB = (.done, sampleDB) :=
  ⟨by decide, gen_task_noop_when_absent sampleEnv "ord_missing" sampleDB (by decide)⟩

/-- C10: the stats endpoint guards the average — zero reports gives 0, and a
positive count gives the rounded quotient of tokens by reports. -/
theorem stats_avg_guarded (db : DB) (w : ℕ) :
    (db.stats.total_reports = 0 → (get_stats db w).avg_tokens = 0) ∧
    (0 < db.stats.total_reports →
      (get_stats db w).avg_tokens =
        roundHalfEven ((db.stats.total_tokens : ℚ) / (db.stats.total_reports : ℚ))) := by
  constructor
  · intro h
    simp [get_stats, avg_tokens_per_report, h]
  · intro h
    simp only [get_stats, avg_tokens_per_report]
    rw [if_pos h]

/-- C10 witness: the zero guard and a rounded quotient at concrete stats. -/
theorem stats_avg_guarded_witness :
    (get_stats { orders := [], reports := [], stats := ⟨0, 7, 0⟩ } 0).avg_tokens = 0 ∧
    (get_stats { orders := [], reports := [], stats := ⟨2, 5, 0⟩ } 0).avg_tokens =
      roundHalfEven ((5 : ℚ) / (2 : ℚ)) :=
  ⟨(stats_avg_guarded { orders := [], reports := [], stats := ⟨0, 7, 0⟩ } 0).1 rfl,
   (stats_avg_guarded { orders := [], reports := [], stats := ⟨2, 5, 0⟩ } 0).2 (by decide)⟩

/-- C5: a payment-completed event with no order id in its metadata, or whose
order id is absent from the store, is acknowledged with a success body and
mutates nothing. -/
theorem webhook_unknown_order_no_mutation (ev : WebhookEvent) (s : SysState)
    (ht : ev.type = "checkout.session.completed")
    (h : ev.session.order_id = none ∨
      ∃ oid, ev.session.order_id = some oid ∧ get_order s.db oid = none) :
    (stripe_webhook ev s).2 = s ∧
    ((stripe_webhook ev s).1 = .ok ∨
      (stripe_webhook ev s).1 = .ignored "no order_id in metadata") := by
  rcases h with h | ⟨oid, hoid, ho⟩
  · rw [stripe_webhook_no_oid s ht h]
    exact ⟨rfl, Or.inr rfl⟩
  · rw [stripe_webhook_no_order ht hoid ho]
    exact ⟨rfl, Or.inl rfl⟩

/-- C5 witness: an event naming an order id the store has never seen. -/
theorem webhook_unknown_order_no_mutation_witness :
    (stripe_webhook { type := "checkout.session.completed"
                      session := { order_id := some "ord_zzz", payment_intent := none
                                   amount_total := none } } pendingState).2 = pendingState ∧
    ((stripe_webhook { type := "checkout.session.completed"
                       session := { order_id := some "ord_zzz", payment_intent := none
                                    amount_total := none } } pendingState).1 = .ok ∨
      (stripe_webhook { type := "checkout.session.completed"
                        session := { order_id := some "ord_zzz", payment_intent := none
                                     amount_total := none } } pendingState).1 =
        .ignored "no order_id in metadata") :=
  webhook_unknown_order_no_mutation _ pendingState rfl (Or.inr ⟨"ord_zzz", rfl, by decide⟩)

/-- Replaying any webhook event is idempotent on the system state. -/
theorem webhookStep_idem (ev : WebhookEvent) (s : SysState) :
    webhookStep ev (webhookStep ev s) = webhookStep ev s := by
  by_cases ht : ev.type = "checkout.session.completed"
  · cases hoid : ev.session.order_id with
    | none =>
      have h1 : webhookStep ev s = s := by
        unfold webhookStep
        rw [stripe_webhook_no_oid s ht hoid]
      rw [h1, h1]
    | some oid =>
      cases ho : get_order s.db oid with
      | none =>
        have h1 : webhookStep ev s = s := by
          unfold webhookStep
          rw [stripe_webhook_no_order ht hoid ho]
        rw [h1, h1]
      | some o =>
        by_cases hst : o.status = "pending_payment"
        · have h2 : get_order (webhookStep ev s).db oid
              = some (applyUpdate (webhookUpdate ev) o) := by
            unfold webhookStep
            rw [stripe_webhook_pending ht hoid ho hst]
            show get_order (increment_stats _ 0 0 _) oid = _
            rw [get_order_increment, get_order_update_self, ho]
            rfl
          have h4 : (applyUpdate (webhookUpdate ev) o).status ≠ "pending_payment" := by
            show "queued" ≠ "pending_payment"
            decide
          show (stripe_webhook ev (webhookStep ev s)).2 = webhookStep ev s
          rw [stripe_webhook_not_pending ht hoid h2 h4]
        · have h1 : webhookStep ev s = s := by
            unfold webhookStep
            rw [stripe_webhook_not_pending ht hoid ho hst]
          rw [h1, h1]
  · have h1 : webhookStep ev s = s := by
      unfold webhookStep
      rw [stripe_webhook_other_type s ht]
    rw [h1, h1]

/-- C1: the payment-confirmation transition is idempotent — a
payment-completed event for an order that is not `pending_payment` changes
nothing, and replaying the event N ≥ 1 times against a `pending_payment`
order yields exactly one `pending_payment → queued` transition, one revenue
increment, and one scheduled generation task. -/
theorem webhook_payment_idempotent (ev : WebhookEvent) (s : SysState)
    (oid : String) (o : Order) (ht : ev.type = "checkout.session.completed")
    (hoid : ev.session.order_id = some oid) (ho : get_order s.db oid = some o) :
    (o.status ≠ "pending_payment" → webhookStep ev s = s) ∧
    (o.status = "pending_payment" →
      statusOf (webhookStep ev s).db oid = some "queued" ∧
      (webhookStep ev s).db.stats.revenue_cents
        = s.db.stats.revenue_cents + webhookAmount ev ∧
      (webhookStep ev s).db.stats.total_reports = s.db.stats.total_reports ∧
      (webhookStep ev s).db.stats.total_tokens = s.db.stats.total_tokens ∧
      (webhookStep ev s).tasks = s.tasks ++ [oid] ∧
      ∀ n : ℕ, 1 ≤ n → (webhookStep ev)^[n] s = webhookStep ev s) := by
  constructor
  · intro hst
    unfold webhookStep
    rw [stripe_webhook_not_pending ht hoid ho hst]
  · intro hst
    have h1 : webhookStep ev s =
        { db := increment_stats (update_order s.db oid (webhookUpdate ev)) 0 0
            (webhookAmount ev)
          tasks := s.tasks ++ [oid] } := by
      unfold webhookStep
      rw [stripe_webhook_pending ht hoid ho hst]
    refine ⟨?_, ?_, ?_, ?_, ?_, ?_⟩
    · rw [h1]
      unfold statusOf
      show (get_order (increment_stats _ 0 0 _) oid).map _ = _
      rw [get_order_increment, get_order_update_self, ho]
      rfl
    · rw [h1]
      rfl
    · rw [h1]
      rfl
    · rw [h1]
      rfl
    · rw [h1]
    · intro n hn
      induction n with
      | zero => exact absurd hn (by decide)
      | succ k ih =>
        by_cases hk : 1 ≤ k
        · rw [Function.iterate_succ_apply', ih hk, webhookStep_idem]
        · have hk0 : k = 0 := by omega
          subst hk0
          rfl

/-- C1 witness: one delivery against the concrete pending order transitions
it, counts the revenue once, and schedules one task. -/
theorem webhook_payment_idempotent_witness :
    statusOf (webhookStep payEvent pendingState).db "ord_p" = some "queued" ∧
    (webhookStep payEvent pendingState).db.stats.revenue_cents
      = pendingState.db.stats.revenue_cents + webhookAmount payEvent ∧
    (webhookStep payEvent pendingState).tasks = pendingState.tasks ++ ["ord_p"] ∧
    (webhookStep payEvent)^[3] pendingState = webhookStep payEvent pendingState := by
  have h := (webhook_payment_idempotent payEvent pendingState "ord_p" pendingOrder
    rfl rfl (by decide)).2 (by decide)
  exact ⟨h.1, h.2.1, h.2.2.2.2.1, h.2.2.2.2.2 3 (by decide)⟩

/-- C2 counterexample: with `ANTHROPIC_API_KEY` unconfigured, the
`get_engine()` exception is raised after the order was already set to
`generating` and OUTSIDE the try block, so it propagates out of the task and
the order is left in `generating` with no error recorded — not `failed`. -/
theorem gen_failure_claim_counterexample :
    (generate_report_sync unconfEnv "ord_1" sampleDB).1
        = .raised "ANTHROPIC_API_KEY not configured" ∧
    statusOf (generate_report_sync unconfEnv "ord_1" sampleDB).2 "ord_1"
        = some "generating" ∧
    errorOf (generate_report_sync unconfEnv "ord_1" sampleDB).2 "ord_1" = some none := by
  refine ⟨?_, ?_, ?_⟩ <;> decide

/-- C2 amended: an exception raised by the generation service call itself
(inside the try block) moves the order to `failed` with the captured error
text, leaves `report_id` null, leaves stats and reports untouched, and does
not propagate; but when the engine is unconfigured the configuration
exception propagates out of the task and the order is left in `generating`. -/
theorem gen_failure_sets_failed (env : GenEnv) (oid : String) (db : DB)
    (o : Order) (msg : String) (ho : get_order db oid = some o)
    (hrid : o.report_id = none) :
    (env.apiKeyConfigured = true → env.result = .err msg →
      (generate_report_sync env oid db).1 = .done ∧
      statusOf (generate_report_sync env oid db).2 oid = some "failed" ∧
      errorOf (generate_report_sync env oid db).2 oid = some (some msg) ∧
      reportIdOf (generate_report_sync env oid db).2 oid = some none ∧
      (generate_report_sync env oid db).2.stats = db.stats ∧
      (generate_report_sync env oid db).2.reports = db.reports) ∧
    (env.apiKeyConfigured = false →
      (generate_report_sync env oid db).1
        = .raised "ANTHROPIC_API_KEY not configured" ∧
      statusOf (generate_report_sync env oid db).2 oid = some "generating") := by
  constructor
  · intro hk hr
    rw [gen_sync_err ho hk hr]
    refine ⟨rfl, ?_, ?_, ?_, rfl, rfl⟩
    · unfold statusOf
      show (get_order (update_order (update_order db oid _) oid _) oid).map _ = _
      rw [get_order_update_self, get_order_update_self, ho]
      rfl
    · unfold errorOf
      show (get_order (update_order (update_order db oid _) oid _) oid).map _ = _
      rw [get_order_update_self, get_order_update_self, ho]
      rfl
    · unfold reportIdOf
      show (get_order (update_order (update_order db oid _) oid _) oid).map _ = _
      rw [get_order_update_self, get_order_update_self, ho]
      show some (applyUpdate (failedUpdate msg) (applyUpdate generatingUpdate o)).report_id
        = some none
      simp [applyUpdate, failedUpdate, generatingUpdate, hrid]
  · intro hk
    rw [gen_sync_unconfigured ho hk]
    refine ⟨rfl, ?_⟩
    unfold statusOf
    show (get_order (update_order db oid _) oid).map _ = _
    rw [get_order_update_self, ho]
    rfl

/-- C2 amended witness: a raising generation call against the sample order. -/
theorem gen_failure_sets_failed_witness :
    statusOf (generate_report_sync sampleEnv "ord_1" sampleDB).2 "ord_1" = some "failed" ∧
    errorOf (generate_report_sync sampleEnv "ord_1" sampleDB).2 "ord_1" = some (some "boom") ∧
    reportIdOf (generate_report_sync sampleEnv "ord_1" sampleDB).2 "ord_1" = some none ∧
    (generate_report_sync sampleEnv "ord_1" sampleDB).2.stats = sampleDB.stats := by
  have h := (gen_failure_sets_failed sampleEnv "ord_1" sampleDB sampleOrder "boom"
    (by decide) rfl).1 rfl rfl
  exact ⟨h.2.1, h.2.2.1, h.2.2.2.1, h.2.2.2.2.1⟩

/-- C3: a successful generation completes the order — status `completed`,
`report_id` pointing at a persisted report whose fields equal the generation
output, `completed_at` set, report counter up by one and token counter up by
exactly the report's token estimate, revenue untouched. -/
theorem gen_success_completes (env : GenEnv) (oid : String) (db : DB)
    (o : Order) (r : AnalysisReport) (ho : get_order db oid = some o)
    (hk : env.apiKeyConfigured = true) (hr : env.result = .ok r) :
    (generate_report_sync env oid db).1 = .done ∧
    statusOf (generate_report_sync env oid db).2 oid = some "completed" ∧
    reportIdOf (generate_report_sync env oid db).2 oid = some (some env.reportId) ∧
    completedAtOf (generate_report_sync env oid db).2 oid = some (some env.completedAt) ∧
    (∃ rep, get_report (generate_report_sync env oid db).2 env.reportId = some rep ∧
      rep.company_name = r.company_name ∧ rep.industry = r.industry ∧
      rep.question = r.question ∧ rep.analysis_type = r.analysis_type ∧
      rep.executive_summary = r.executive_summary ∧
      rep.full_report = r.full_report ∧ rep.sections = r.sections ∧
      rep.key_insights = r.key_insights ∧
      rep.recommendations = r.recommendations ∧
      rep.estimated_tokens_used = r.estimated_tokens_used) ∧
    (generate_report_sync env oid db).2.stats.total_reports
      = db.stats.total_reports + 1 ∧
    (generate_report_sync env oid db).2.stats.total_tokens
      = db.stats.total_tokens + r.estimated_tokens_used ∧
    (generate_report_sync env oid db).2.stats.revenue_cents
      = db.stats.revenue_cents := by
  rw [gen_sync_ok ho hk hr]
  have hlook : get_order
      (update_order
        (save_report (update_order db oid generatingUpdate)
          (mkReportData env.reportId env.createdAt env.elapsed r))
        oid (completedUpdate env.reportId env.completedAt)) oid
      = some (applyUpdate (completedUpdate env.reportId env.completedAt)
          (applyUpdate generatingUpdate o)) := by
    rw [get_order_update_self, get_order_save_report, get_order_update_self, ho]
    rfl
  refine ⟨rfl, ?_, ?_, ?_, ?_, ?_, ?_, ?_⟩
  · unfold statusOf
    rw [get_order_increment, hlook]
    rfl
  · unfold reportIdOf
    rw [get_order_increment, hlook]
    rfl
  · unfold completedAtOf
    rw [get_order_increment, hlook]
    rfl
  · refine ⟨mkReportData env.reportId env.createdAt env.elapsed r, ?_,
      rfl, rfl, rfl, rfl, rfl, rfl, rfl, rfl, rfl, rfl⟩
    show get_report (save_report (update_order db oid generatingUpdate)
      (mkReportData env.reportId env.createdAt env.elapsed r)) env.reportId = _
    exact get_report_save_self _ _
  · show (update_order (save_report _ _) _ _).stats.total_reports + 1 = _
    rw [update_order_stats, save_report_stats, update_order_stats]
  · show (update_order (save_report _ _) _ _).stats.total_tokens + _ = _
    rw [update_order_stats, save_report_stats, update_order_stats]
  · show (update_order (save_report _ _) _ _).stats.revenue_cents + 0 = _
    rw [update_order_stats, save_report_stats, update_order_stats]
    rfl

/-- C3 witness: a successful generation against the sample order. -/
theorem gen_success_completes_witness :
    statusOf (generate_report_sync okEnv "ord_1" sampleDB).2 "ord_1" = some "completed" ∧
    reportIdOf (generate_report_sync okEnv "ord_1" sampleDB).2 "ord_1"
      = some (some "rpt_9") ∧
    (generate_report_sync okEnv "ord_1" sampleDB).2.stats.total_reports
      = sampleDB.stats.total_reports + 1 ∧
    (generate_report_sync okEnv "ord_1" sampleDB).2.stats.total_tokens
      = sampleDB.stats.total_tokens + sampleAnalysis.estimated_tokens_used := by
  have h := gen_success_completes okEnv "ord_1" sampleDB sampleOrder sampleAnalysis
    (by decide) rfl rfl
  exact ⟨h.2.1, h.2.2.1, h.2.2.2.2.2.1, h.2.2.2.2.2.2.1⟩

/-- C6: in every state the pipeline can reach — by direct intake, checkout
intake, webhook delivery, and background task execution from the initialised
store — every order satisfies `report_id ≠ null` exactly when its status is
`completed`. -/
theorem report_id_iff_completed {s : SysState} (h : Reachable s) :
    ∀ o ∈ s.db.orders, (o.report_id ≠ none ↔ o.status = "completed") :=
  (reachable_inv h).consistent

/-- C6 witness: the invariant at the one order of the concrete state reached
by one direct intake from the initial store. -/
theorem report_id_iff_completed_witness :
    (mkOrder "ord_1" "k1" "queued" "t0" sampleReq).report_id ≠ none ↔
      (mkOrder "ord_1" "k1" "queued" "t0" sampleReq).status = "completed" :=
  report_id_iff_completed
    (Reachable.step Reachable.init
      (Step.intake_direct "ord_1" "k1" "t0" sampleReq initState rfl))
    (mkOrder "ord_1" "k1" "queued" "t0" sampleReq) (by decide)

/-- C7: `update_order` rewrites exactly the named columns of the matching
order — the looked-up row becomes `applyUpdate u o`, every other order id
reads back unchanged, the id and every unnamed column keep their values —
and since no pipeline step names `access_key` in an update (and intake ids
are fresh), every pipeline step preserves every existing order's access key. -/
theorem update_frame_access_key_stable (db : DB) (oid : String) (u : OrderUpdate)
    (o : Order) (ho : get_order db oid = some o) :
    (get_order (update_order db oid u) oid = some (applyUpdate u o)) ∧
    (∀ oid', oid' ≠ oid → get_order (update_order db oid u) oid' = get_order db oid') ∧
    ((applyUpdate u o).id = o.id) ∧
    (u.access_key = none → (applyUpdate u o).access_key = o.access_key) ∧
    (u.status = none → (applyUpdate u o).status = o.status) ∧
    (u.stripe_session_id = none →
      (applyUpdate u o).stripe_session_id = o.stripe_session_id) ∧
    (u.stripe_payment_id = none →
      (applyUpdate u o).stripe_payment_id = o.stripe_payment_id) ∧
    (u.amount_cents = none → (applyUpdate u o).amount_cents = o.amount_cents) ∧
    (u.completed_at = none → (applyUpdate u o).completed_at = o.completed_at) ∧
    (u.report_id = none → (applyUpdate u o).report_id = o.report_id) ∧
    (u.error = none → (applyUpdate u o).error = o.error) ∧
    (∀ v, u.status = some v → (applyUpdate u o).status = v) ∧
    (∀ v, u.access_key = some v → (applyUpdate u o).access_key = v) ∧
    (∀ s s' : SysState, Step s s' → ∀ oid₂ o₂, get_order s.db oid₂ = some o₂ →
      ∃ o₂', get_order s'.db oid₂ = some o₂' ∧ o₂'.access_key = o₂.access_key) := by
  refine ⟨?_, ?_, rfl, ?_, ?_, ?_, ?_, ?_, ?_, ?_, ?_, ?_, ?_, ?_⟩
  · rw [get_order_update_self, ho]
    rfl
  · intro oid' hne
    exact get_order_update_other db oid oid' u hne
  · intro h
    simp [applyUpdate, h]
  · intro h
    simp [applyUpdate, h]
  · intro h
    simp [applyUpdate, h]
  · intro h
    simp [applyUpdate, h]
  · intro h
    simp [applyUpdate, h]
  · intro h
    simp [applyUpdate, h]
  · intro h
    simp [applyUpdate, h]
  · intro h
    simp [applyUpdate, h]
  · intro v h
    simp [applyUpdate, h]
  · intro v h
    simp [applyUpdate, h]
  · exact fun s s' hst oid₂ o₂ ho₂ => step_keeps_key hst ho₂

/-- C7 witness: the frame at a concrete update (the `status="generating"`
write against the sample store), with the access key untouched. -/
theorem update_frame_access_key_stable_witness :
    get_order (update_order sampleDB "ord_1" generatingUpdate) "ord_1"
      = some (applyUpdate generatingUpdate sampleOrder) ∧
    (applyUpdate generatingUpdate sampleOrder).access_key = sampleOrder.access_key ∧
    (applyUpdate generatingUpdate sampleOrder).status = "generating" := by
  have h := update_frame_access_key_stable sampleDB "ord_1" generatingUpdate
    sampleOrder (by decide)
  exact ⟨h.1, h.2.2.2.1 rfl, h.2.2.2.2.2.2.2.2.2.2.2.1 "generating" rfl⟩

end InsightForge
